import Mathlib

/-!
Verification development for the binary resolution core of the `bvm` version
manager.  The functions in `src/plugins/helpers.rs` are translated directly;
the surrounding data model (`BinaryManifestItem`, `PluginsManifest`, selector
types, the environment capability) is not part of the provided sources and is
modelled from the specification.
-/

open Batteries

namespace Bvm

/-- Modelled from the spec: a semantic version, an immutable (major, minor,
patch) triple. -/
structure Version where
  major : Nat
  minor : Nat
  patch : Nat
  deriving DecidableEq

/-- Modelled from the spec: the display string of a version,
`major.minor.patch`. -/
def Version.toDisplay (v : Version) : String :=
  toString v.major ++ "." ++ toString v.minor ++ "." ++ toString v.patch

/-- Modelled from the spec: a qualified binary name, owner plus short name. -/
structure BinaryName where
  owner : String
  name : String
  deriving DecidableEq

/-- Modelled from the spec: the display string of a qualified name. -/
def BinaryName.toDisplay (n : BinaryName) : String :=
  n.owner ++ "/" ++ n.name

/-- Modelled from the spec: one command provided by an installed binary, a
pair of the command name and the relative executable path. -/
structure CommandInfo where
  name : String
  path : String
  deriving DecidableEq

/-- Modelled from the spec: one installed binary of the manifest, with its
qualified name, its version and the commands it provides. -/
structure BinaryManifestItem where
  name : BinaryName
  version : Version
  commands : List CommandInfo
  deriving DecidableEq

/-- Modelled from the spec: versions compare lexicographically by
(major, minor, patch). -/
def Version.cmp : Version → Version → Ordering :=
  compareLex (compareOn (·.major)) (compareLex (compareOn (·.minor)) (compareOn (·.patch)))

instance : Ord Version := ⟨Version.cmp⟩

instance : Batteries.TransCmp Version.cmp := by
  unfold Version.cmp; infer_instance

instance : Batteries.TransOrd Version :=
  inferInstanceAs (Batteries.TransCmp Version.cmp)

/-- Modelled from the spec: qualified names compare by owner, then short
name. -/
def BinaryName.cmp : BinaryName → BinaryName → Ordering :=
  compareLex (compareOn (·.owner)) (compareOn (·.name))

instance : Ord BinaryName := ⟨BinaryName.cmp⟩

instance : Batteries.TransCmp BinaryName.cmp := by
  unfold BinaryName.cmp; infer_instance

instance : Batteries.TransOrd BinaryName :=
  inferInstanceAs (Batteries.TransCmp BinaryName.cmp)

/-- Modelled from the spec: the total order on manifest items compares the
qualified name first and the version second. -/
def BinaryManifestItem.cmp : BinaryManifestItem → BinaryManifestItem → Ordering :=
  compareLex (compareOn (·.name)) (compareOn (·.version))

instance : Batteries.TransCmp BinaryManifestItem.cmp := by
  unfold BinaryManifestItem.cmp; infer_instance

/-- Modelled from the spec: the nonstrict order induced by the comparator,
used by sorting. -/
def BinaryManifestItem.le (a b : BinaryManifestItem) : Prop :=
  a.cmp b ≠ Ordering.gt

instance : DecidableRel BinaryManifestItem.le := fun a b => by
  unfold BinaryManifestItem.le; infer_instance

/-- Modelled from the spec: a fully qualified identity of one installed
binary, (owner, name, version). -/
structure BinaryIdentifier where
  owner : String
  name : String
  version : Version
  deriving DecidableEq

/-- Modelled from the spec: the qualified name carried by an identifier. -/
def BinaryIdentifier.get_binary_name (id : BinaryIdentifier) : BinaryName :=
  ⟨id.owner, id.name⟩

/-- Modelled from the spec: a possibly partial match key, an exact short name
with an optional owner constraint. -/
structure NameSelector where
  owner : Option String
  name : String
  deriving DecidableEq

/-- Modelled from the spec: a selector matches a qualified name iff the short
names are equal and the owner constraint is absent or equal. -/
def NameSelector.matches_name (s : NameSelector) (n : BinaryName) : Bool :=
  decide (s.name = n.name) &&
    (match s.owner with
     | none => true
     | some o => decide (o = n.owner))

/-- Modelled from the spec: the selector derived from a qualified name. -/
def BinaryName.to_selector (n : BinaryName) : NameSelector :=
  ⟨some n.owner, n.name⟩

/-- Modelled from the spec: a version-range constraint, either an exact
version, an inclusive range, or any version. -/
inductive VersionSelector where
  | exactVersion (v : Version)
  | range (low high : Version)
  | anyVersion
  deriving DecidableEq

/-- Modelled from the spec: a version selector matches a version iff the
version satisfies the constraint. -/
def VersionSelector.matches_version : VersionSelector → Version → Bool
  | VersionSelector.exactVersion v, w => decide (v = w)
  | VersionSelector.range low high, w =>
      decide (Version.cmp low w ≠ Ordering.gt) && decide (Version.cmp w high ≠ Ordering.gt)
  | VersionSelector.anyVersion, _ => true

/-- Modelled from the spec: the two-variant global binding for a command
name, either PATH delegation or one specific installed binary. -/
inductive GlobalBinaryLocation where
  | path
  | bvm (identifier : BinaryIdentifier)
  deriving DecidableEq

/-- Modelled from the spec: a project-level declaration of a binary, a source
path/URL plus an optional version selector. -/
structure ConfigFileBinary where
  path : String
  version : Option VersionSelector

/-- Modelled from the spec: the in-memory manifest snapshot, an index of
installed binaries, URL associations and global command bindings. -/
structure PluginsManifest where
  binaries : List BinaryManifestItem
  urlAssociations : List (String × BinaryIdentifier)
  globalLocations : List (String × GlobalBinaryLocation)

/-- Modelled from the spec: identifier lookup by URL association. -/
def PluginsManifest.get_identifier_from_url (m : PluginsManifest) (url : String) :
    Option BinaryIdentifier :=
  (m.urlAssociations.find? (fun p => decide (p.1 = url))).map (·.2)

/-- Modelled from the spec: whether an installed item has exactly the given
identity. -/
def BinaryManifestItem.has_identifier (b : BinaryManifestItem) (id : BinaryIdentifier) : Bool :=
  decide (b.name.owner = id.owner) && decide (b.name.name = id.name) &&
    decide (b.version = id.version)

/-- Modelled from the spec: exact binary lookup by identifier. -/
def PluginsManifest.get_binary (m : PluginsManifest) (id : BinaryIdentifier) :
    Option BinaryManifestItem :=
  m.binaries.find? (fun b => b.has_identifier id)

/-- Modelled from the spec: the installed binaries matching a name selector
and a version selector. -/
def PluginsManifest.get_binaries_matching_name_and_version (m : PluginsManifest)
    (name_selector : NameSelector) (version_selector : VersionSelector) :
    List BinaryManifestItem :=
  m.binaries.filter
    (fun b => name_selector.matches_name b.name && version_selector.matches_version b.version)

/-- Modelled from the spec: the installed binaries matching a name selector,
ignoring the version. -/
def PluginsManifest.get_binaries_matching_name (m : PluginsManifest)
    (name_selector : NameSelector) : List BinaryManifestItem :=
  m.binaries.filter (fun b => name_selector.matches_name b.name)

/-- Modelled from the spec: whether an installed item provides the given
command name. -/
def BinaryManifestItem.has_command (b : BinaryManifestItem) (command_name : String) : Bool :=
  b.commands.any (fun c => decide (c.name = command_name))

/-- Modelled from the spec: the installed binaries providing a given command
name. -/
def PluginsManifest.get_binaries_with_command (m : PluginsManifest) (command_name : String) :
    List BinaryManifestItem :=
  m.binaries.filter (fun b => b.has_command command_name)

/-- Modelled from the spec: the current global binding for a command name. -/
def PluginsManifest.get_global_binary_location (m : PluginsManifest) (command_name : String) :
    Option GlobalBinaryLocation :=
  (m.globalLocations.find? (fun p => decide (p.1 = command_name))).map (·.2)

/-- Resolution failures, one constructor per error construction site of
`src/plugins/helpers.rs`, carrying the data interpolated into the message. -/
inductive ResolutionError where
  /-- Could not find any installed binaries named X. -/
  | notFoundNamed (name_selector : NameSelector)
  /-- Could not find binary X that matched version Y, with the displayed
  installed versions. -/
  | versionMismatch (name_selector : NameSelector) (version_selector : VersionSelector)
      (installedVersions : List String)
  /-- Multiple binaries with the specified name matched the version, with the
  displayed installed versions. -/
  | multipleOwners (name_selector : NameSelector) (version_selector : VersionSelector)
      (installedVersions : List String)
  /-- Binary is configured to use the executable on the path, but only the
  bvm version exists on the path. -/
  | onlyBvmOnPath (command_name : String)
  /-- Should have found executable path for global binary; report as a bug
  and reselect the version. -/
  | staleGlobalBinary (command_name : String)
  /-- Could not find binary on the path for the command. -/
  | noPathBinary (command_name : String)
  /-- No binary is set on the path for the command, with the displayed
  installed versions. -/
  | noGlobalVersionSet (command_name : String) (installedVersions : List String)
  /-- An error of the environment collaborator, propagated verbatim. -/
  | environmentFailure (message : String)
  deriving DecidableEq

/-- Outcome of a fallible operation of the resolution core: a success, an
error result returned to the caller, or a process-fatal panic. -/
inductive RunOutcome (α : Type) where
  | ok (value : α)
  | error (e : ResolutionError)
  | panicked (message : String)
  deriving DecidableEq

/-- Whether an outcome is an error result returned to the caller. -/
def RunOutcome.isError {α : Type} : RunOutcome α → Bool
  | RunOutcome.error _ => true
  | _ => false

/-- Whether an outcome is a process-fatal panic. -/
def RunOutcome.isPanicked {α : Type} : RunOutcome α → Bool
  | RunOutcome.panicked _ => true
  | _ => false

/-- Modelled from the spec: the environment collaborator, exposing the PATH
executable lookup (excluding the manager shims) and the plugin cache
directory of an installed binary; both may fail with propagated errors. -/
structure Environment where
  find_path_executable : String → Except ResolutionError (Option String)
  get_plugin_dir : BinaryName → Version → Except ResolutionError String

/-- Modelled from the spec: the path separator of the non-Windows
configuration of `src/environment/common.rs`. -/
def PATH_SEPARATOR : String := "/"

/-- Modelled from the spec: joining a directory with a relative path. -/
def joinPath (dir rel : String) : String :=
  dir ++ PATH_SEPARATOR ++ rel

/-- Loop body of `get_latest_binary` in `src/plugins/helpers.rs`: replace the
current latest item when it compares strictly less than the next candidate. -/
def latestStep (latest_binary : Option BinaryManifestItem) (binary : BinaryManifestItem) :
    Option BinaryManifestItem :=
  match latest_binary with
  | some latest_binary_val =>
      if latest_binary_val.cmp binary = Ordering.lt then some binary
      else some latest_binary_val
  | none => some binary

/-- Translated from `get_latest_binary` in `src/plugins/helpers.rs`: fold
over the candidates keeping the greatest item seen so far. -/
def get_latest_binary (binaries : List BinaryManifestItem) : Option BinaryManifestItem :=
  binaries.foldl latestStep none

/-- Translated from `get_have_same_owner` in `src/plugins/helpers.rs`. -/
def get_have_same_owner (binaries : List BinaryManifestItem) : Bool :=
  match binaries with
  | [] => true
  | first :: _ => binaries.all (fun b => decide (b.name.owner = first.name.owner))

/-- Modelled from the spec: the stable sort of `Vec::sort` by the total
order. -/
def sortBinaries (binaries : List BinaryManifestItem) : List BinaryManifestItem :=
  List.insertionSort BinaryManifestItem.le binaries

/-- Translated from `display_binaries_versions` in `src/plugins/helpers.rs`:
sort the candidates, then display either the bare version or the name and
the version depending on owner uniformity. -/
def display_binaries_versions (binaries : List BinaryManifestItem) : List String :=
  if binaries.isEmpty then []
  else
    let sorted := sortBinaries binaries
    let have_same_owner := get_have_same_owner sorted
    sorted.map
      (fun b =>
        if have_same_owner then b.version.toDisplay
        else b.name.toDisplay ++ " " ++ b.version.toDisplay)

/-- Translated from `get_binary_with_name_and_version` in
`src/plugins/helpers.rs`. -/
def get_binary_with_name_and_version (plugin_manifest : PluginsManifest)
    (name_selector : NameSelector) (version_selector : VersionSelector) :
    RunOutcome BinaryManifestItem :=
  let binaries :=
    plugin_manifest.get_binaries_matching_name_and_version name_selector version_selector
  if binaries.length = 0 then
    let nameBinaries := plugin_manifest.get_binaries_matching_name name_selector
    if nameBinaries.isEmpty then
      RunOutcome.error (ResolutionError.notFoundNamed name_selector)
    else
      RunOutcome.error
        (ResolutionError.versionMismatch name_selector version_selector
          (display_binaries_versions nameBinaries))
  else if !get_have_same_owner binaries then
    RunOutcome.error
      (ResolutionError.multipleOwners name_selector version_selector
        (display_binaries_versions binaries))
  else
    match get_latest_binary binaries with
    | some b => RunOutcome.ok b
    | none => RunOutcome.panicked "called Option::unwrap on a None value"

/-- Translated from `get_latest_binary_matching_name_and_version` in
`src/plugins/helpers.rs`. -/
def get_latest_binary_matching_name_and_version (manifest : PluginsManifest)
    (name_selector : NameSelector) (version_selector : VersionSelector) :
    Option BinaryManifestItem :=
  get_latest_binary
    (manifest.get_binaries_matching_name_and_version name_selector version_selector)

/-- Translated from `get_installed_binary_if_associated_config_file_binary`
in `src/plugins/helpers.rs`. -/
def get_installed_binary_if_associated_config_file_binary (manifest : PluginsManifest)
    (config_binary : ConfigFileBinary) : Option BinaryManifestItem :=
  match manifest.get_identifier_from_url config_binary.path with
  | some identifier =>
      match manifest.get_binary identifier with
      | some binary => some binary
      | none =>
          match config_binary.version with
          | some version_selector =>
              let name_selector := identifier.get_binary_name.to_selector
              get_latest_binary_matching_name_and_version manifest name_selector version_selector
          | none => none
  | none => none

/-- Translated from `get_global_binary_file_name` in
`src/plugins/helpers.rs`: the four-branch global command resolution. -/
def get_global_binary_file_name (environment : Environment)
    (plugin_manifest : PluginsManifest) (command_name : String) : RunOutcome String :=
  match plugin_manifest.get_global_binary_location command_name with
  | some location =>
      match location with
      | GlobalBinaryLocation.path =>
          match environment.find_path_executable command_name with
          | Except.error e => RunOutcome.error e
          | Except.ok (some path_executable_path) => RunOutcome.ok path_executable_path
          | Except.ok none =>
              RunOutcome.error (ResolutionError.onlyBvmOnPath command_name)
      | GlobalBinaryLocation.bvm identifier =>
          match plugin_manifest.get_binary identifier with
          | some item =>
              match environment.get_plugin_dir item.name item.version with
              | Except.error e => RunOutcome.error e
              | Except.ok plugin_cache_dir =>
                  match item.commands.find? (fun c => decide (c.name = command_name)) with
                  | some command => RunOutcome.ok (joinPath plugin_cache_dir command.path)
                  | none => RunOutcome.panicked "Expected to have command."
          | none =>
              RunOutcome.error (ResolutionError.staleGlobalBinary command_name)
  | none =>
      match environment.find_path_executable command_name with
      | Except.error e => RunOutcome.error e
      | Except.ok (some path_executable_path) => RunOutcome.ok path_executable_path
      | Except.ok none =>
          let binaries := plugin_manifest.get_binaries_with_command command_name
          if binaries.isEmpty then
            RunOutcome.error (ResolutionError.noPathBinary command_name)
          else
            RunOutcome.error
              (ResolutionError.noGlobalVersionSet command_name
                (display_binaries_versions binaries))

/-! Helper lemmas about the comparator, the latest-binary fold, owner
uniformity and sorting. -/

theorem latestStep_isSome (acc : Option BinaryManifestItem) (x : BinaryManifestItem) :
    ∃ y, latestStep acc x = some y := by
  cases acc with
  | none => exact ⟨x, rfl⟩
  | some a =>
      dsimp [latestStep]
      split
      · exact ⟨x, rfl⟩
      · exact ⟨a, rfl⟩

theorem foldl_latestStep_isSome (l : List BinaryManifestItem) :
    ∀ a : BinaryManifestItem, ∃ r, List.foldl latestStep (some a) l = some r := by
  induction l with
  | nil => exact fun a => ⟨a, rfl⟩
  | cons x xs ih =>
      intro a
      obtain ⟨y, hy⟩ := latestStep_isSome (some a) x
      simpa [List.foldl_cons, hy] using ih y

theorem foldl_latestStep_mem (l : List BinaryManifestItem) :
    ∀ (acc : Option BinaryManifestItem) (r : BinaryManifestItem),
      List.foldl latestStep acc l = some r → acc = some r ∨ r ∈ l := by
  induction l with
  | nil => exact fun acc r h => Or.inl h
  | cons x xs ih =>
      intro acc r h
      rw [List.foldl_cons] at h
      rcases ih (latestStep acc x) r h with hstep | hmem
      · cases acc with
        | none =>
            simp only [latestStep, Option.some.injEq] at hstep
            subst hstep
            exact Or.inr (List.mem_cons_self x xs)
        | some a =>
            simp only [latestStep] at hstep
            split at hstep
            · cases hstep
              exact Or.inr (List.mem_cons_self x xs)
            · exact Or.inl hstep
      · exact Or.inr (List.mem_cons_of_mem x hmem)

theorem foldl_latestStep_ge (l : List BinaryManifestItem) :
    ∀ (acc : Option BinaryManifestItem) (r : BinaryManifestItem),
      List.foldl latestStep acc l = some r →
      (∀ b ∈ l, BinaryManifestItem.cmp r b ≠ Ordering.lt) ∧
      (∀ a, acc = some a → BinaryManifestItem.cmp r a ≠ Ordering.lt) := by
  induction l with
  | nil =>
      intro acc r h
      refine ⟨fun b hb => absurd hb (List.not_mem_nil b), fun a ha => ?_⟩
      rw [List.foldl_nil] at h
      rw [ha] at h
      cases h
      simp [Batteries.OrientedCmp.cmp_refl]
  | cons x xs ih =>
      intro acc r h
      rw [List.foldl_cons] at h
      obtain ⟨hxs, hacc⟩ := ih (latestStep acc x) r h
      have hx : BinaryManifestItem.cmp r x ≠ Ordering.lt := by
        cases acc with
        | none => exact hacc x rfl
        | some a =>
            simp only [latestStep] at hacc
            by_cases hlt : BinaryManifestItem.cmp a x = Ordering.lt
            · exact hacc x (by simp [hlt])
            · exact Batteries.TransCmp.ge_trans (hacc a (by simp [hlt])) hlt
      refine ⟨fun b hb => ?_, fun a ha => ?_⟩
      · rcases List.mem_cons.mp hb with hb | hb
        · exact hb ▸ hx
        · exact hxs b hb
      · subst ha
        simp only [latestStep] at hacc
        by_cases hlt : BinaryManifestItem.cmp a x = Ordering.lt
        · exact Batteries.TransCmp.ge_trans hx (Batteries.TransCmp.lt_asymm hlt)
        · exact hacc a (by simp [hlt])

theorem get_latest_binary_nil : get_latest_binary [] = none := rfl

theorem get_latest_binary_of_ne_nil (l : List BinaryManifestItem) (h : l ≠ []) :
    ∃ r, get_latest_binary l = some r := by
  cases l with
  | nil => exact absurd rfl h
  | cons x xs =>
      obtain ⟨r, hr⟩ := foldl_latestStep_isSome xs x
      exact ⟨r, by simpa [get_latest_binary, latestStep] using hr⟩

theorem get_latest_binary_eq_none_iff (l : List BinaryManifestItem) :
    get_latest_binary l = none ↔ l = [] := by
  constructor
  · intro h
    by_contra hne
    obtain ⟨r, hr⟩ := get_latest_binary_of_ne_nil l hne
    rw [h] at hr
    cases hr
  · intro h
    subst h
    rfl

theorem get_have_same_owner_iff (l : List BinaryManifestItem) :
    get_have_same_owner l = true ↔
      ∀ a ∈ l, ∀ b ∈ l, a.name.owner = b.name.owner := by
  cases l with
  | nil => simp [get_have_same_owner]
  | cons first rest =>
      simp only [get_have_same_owner, List.all_eq_true, decide_eq_true_eq]
      constructor
      · intro h a ha b hb
        exact (h a ha).trans (h b hb).symm
      · intro h b hb
        exact h b hb first (List.mem_cons_self first rest)

instance : IsTrans BinaryManifestItem BinaryManifestItem.le :=
  ⟨fun _ _ _ h1 h2 => Batteries.TransCmp.le_trans h1 h2⟩

instance : IsTotal BinaryManifestItem BinaryManifestItem.le := by
  refine ⟨fun a b => ?_⟩
  unfold BinaryManifestItem.le
  cases h : BinaryManifestItem.cmp a b with
  | lt => exact Or.inl (by simp [h])
  | eq => exact Or.inl (by simp [h])
  | gt =>
      refine Or.inr ?_
      rw [Batteries.OrientedCmp.cmp_eq_gt.mp h]
      simp

theorem sortBinaries_perm (l : List BinaryManifestItem) : (sortBinaries l).Perm l :=
  List.perm_insertionSort BinaryManifestItem.le l

theorem sortBinaries_sorted (l : List BinaryManifestItem) :
    List.Sorted BinaryManifestItem.le (sortBinaries l) :=
  List.sorted_insertionSort BinaryManifestItem.le l

theorem display_binaries_versions_nil : display_binaries_versions [] = [] := rfl

theorem get_have_same_owner_sort_true (l : List BinaryManifestItem)
    (h : ∀ a ∈ l, ∀ b ∈ l, a.name.owner = b.name.owner) :
    get_have_same_owner (sortBinaries l) = true := by
  refine (get_have_same_owner_iff (sortBinaries l)).mpr ?_
  intro a ha b hb
  exact h a ((sortBinaries_perm l).mem_iff.mp ha) b ((sortBinaries_perm l).mem_iff.mp hb)

theorem get_have_same_owner_sort_false (l : List BinaryManifestItem)
    (a c : BinaryManifestItem) (ha : a ∈ l) (hc : c ∈ l)
    (how : a.name.owner ≠ c.name.owner) :
    get_have_same_owner (sortBinaries l) = false := by
  cases h : get_have_same_owner (sortBinaries l) with
  | false => rfl
  | true =>
      exact absurd
        ((get_have_same_owner_iff (sortBinaries l)).mp h a
          ((sortBinaries_perm l).mem_iff.mpr ha) c ((sortBinaries_perm l).mem_iff.mpr hc))
        how

theorem display_binaries_versions_uniform (l : List BinaryManifestItem)
    (h : ∀ a ∈ l, ∀ b ∈ l, a.name.owner = b.name.owner) :
    display_binaries_versions l = (sortBinaries l).map (fun b => b.version.toDisplay) := by
  cases l with
  | nil => rfl
  | cons x xs =>
      rw [display_binaries_versions, if_neg (by simp)]
      simp only [get_have_same_owner_sort_true (x :: xs) h, if_true]

theorem display_binaries_versions_mixed (l : List BinaryManifestItem)
    (a c : BinaryManifestItem) (ha : a ∈ l) (hc : c ∈ l)
    (how : a.name.owner ≠ c.name.owner) :
    display_binaries_versions l =
      (sortBinaries l).map (fun b => b.name.toDisplay ++ " " ++ b.version.toDisplay) := by
  cases l with
  | nil => exact absurd ha (List.not_mem_nil a)
  | cons x xs =>
      rw [display_binaries_versions, if_neg (by simp)]
      simp only [get_have_same_owner_sort_false (x :: xs) a c ha hc how,
        Bool.false_eq_true, if_false]

/-! Claim theorems. -/

/-- Claim C1: for every command name bound to `Bvm(id)` where `id` has an
installed entry in the manifest and that entry lists the command, global
command resolution succeeds and returns exactly the join of the binary's
plugin cache directory with that command's registered relative executable
path. -/
theorem claim_C1_global_bvm_resolution (environment : Environment)
    (manifest : PluginsManifest) (command_name : String) (identifier : BinaryIdentifier)
    (item : BinaryManifestItem) (plugin_cache_dir : String) (command : CommandInfo)
    (hloc : manifest.get_global_binary_location command_name =
      some (GlobalBinaryLocation.bvm identifier))
    (hbin : manifest.get_binary identifier = some item)
    (hdir : environment.get_plugin_dir item.name item.version = Except.ok plugin_cache_dir)
    (hcmd : item.commands.find? (fun c => decide (c.name = command_name)) = some command) :
    get_global_binary_file_name environment manifest command_name =
      RunOutcome.ok (joinPath plugin_cache_dir command.path) := by
  simp [get_global_binary_file_name, hloc, hbin, hdir, hcmd]

/-- Witness for claim C1 at the fixture of the spec: identifier
(acme, fmt, 1.2.0) providing command fmt at relative path fmt-bin. -/
theorem claim_C1_witness :
    get_global_binary_file_name
        ⟨fun _ => Except.ok none, fun _ _ => Except.ok "cachedir"⟩
        ⟨[⟨⟨"acme", "fmt"⟩, ⟨1, 2, 0⟩, [⟨"fmt", "fmt-bin"⟩]⟩], [],
          [("fmt", GlobalBinaryLocation.bvm ⟨"acme", "fmt", ⟨1, 2, 0⟩⟩)]⟩ "fmt" =
      RunOutcome.ok "cachedir/fmt-bin" :=
  claim_C1_global_bvm_resolution _ _ _ ⟨"acme", "fmt", ⟨1, 2, 0⟩⟩
    ⟨⟨"acme", "fmt"⟩, ⟨1, 2, 0⟩, [⟨"fmt", "fmt-bin"⟩]⟩ "cachedir" ⟨"fmt", "fmt-bin"⟩
    rfl rfl rfl rfl

/-- Claim C2 counterexample: with a command bound to `Bvm(id)`, `id`
installed, but the installed item listing no commands, global command
resolution panics instead of returning an error result. -/
theorem claim_C2_counterexample :
    get_global_binary_file_name
        ⟨fun _ => Except.ok none, fun _ _ => Except.ok "cachedir"⟩
        ⟨[⟨⟨"acme", "fmt"⟩, ⟨1, 2, 0⟩, []⟩], [],
          [("fmt", GlobalBinaryLocation.bvm ⟨"acme", "fmt", ⟨1, 2, 0⟩⟩)]⟩ "fmt" =
      RunOutcome.panicked "Expected to have command." ∧
    (get_global_binary_file_name
        ⟨fun _ => Except.ok none, fun _ _ => Except.ok "cachedir"⟩
        ⟨[⟨⟨"acme", "fmt"⟩, ⟨1, 2, 0⟩, []⟩], [],
          [("fmt", GlobalBinaryLocation.bvm ⟨"acme", "fmt", ⟨1, 2, 0⟩⟩)]⟩ "fmt").isError =
      false :=
  ⟨rfl, rfl⟩

/-- Claim C2 (amended): global command resolution never panics provided that
every command bound to `Bvm(id)` with an installed entry is listed among
that entry's commands; in the remaining case, a bound installed entry not
listing the command, resolution panics rather than returning an error. -/
theorem claim_C2_amended_no_panic (environment : Environment) (manifest : PluginsManifest)
    (command_name : String)
    (h : ∀ identifier item,
      manifest.get_global_binary_location command_name =
        some (GlobalBinaryLocation.bvm identifier) →
      manifest.get_binary identifier = some item →
      item.has_command command_name = true) :
    (get_global_binary_file_name environment manifest command_name).isPanicked = false := by
  cases hloc : manifest.get_global_binary_location command_name with
  | none =>
      cases hfind : environment.find_path_executable command_name with
      | error e => simp [get_global_binary_file_name, hloc, hfind, RunOutcome.isPanicked]
      | ok o =>
          cases o with
          | some p => simp [get_global_binary_file_name, hloc, hfind, RunOutcome.isPanicked]
          | none =>
              simp only [get_global_binary_file_name, hloc, hfind]
              split
              · rfl
              · rfl
  | some loc =>
      cases loc with
      | path =>
          cases hfind : environment.find_path_executable command_name with
          | error e => simp [get_global_binary_file_name, hloc, hfind, RunOutcome.isPanicked]
          | ok o =>
              cases o with
              | some p =>
                  simp [get_global_binary_file_name, hloc, hfind, RunOutcome.isPanicked]
              | none =>
                  simp [get_global_binary_file_name, hloc, hfind, RunOutcome.isPanicked]
      | bvm identifier =>
          cases hbin : manifest.get_binary identifier with
          | none => simp [get_global_binary_file_name, hloc, hbin, RunOutcome.isPanicked]
          | some item =>
              cases hdir : environment.get_plugin_dir item.name item.version with
              | error e =>
                  simp [get_global_binary_file_name, hloc, hbin, hdir, RunOutcome.isPanicked]
              | ok plugin_cache_dir =>
                  cases hfindc :
                      item.commands.find? (fun c => decide (c.name = command_name)) with
                  | some command =>
                      simp [get_global_binary_file_name, hloc, hbin, hdir, hfindc,
                        RunOutcome.isPanicked]
                  | none =>
                      exfalso
                      have hc := h identifier item hloc hbin
                      simp only [BinaryManifestItem.has_command, List.any_eq_true,
                        decide_eq_true_eq] at hc
                      obtain ⟨c, hcmem, hcname⟩ := hc
                      rw [List.find?_eq_none] at hfindc
                      exact hfindc c hcmem (by simp [hcname])

/-- Witness for the amended claim C2: a manifest with no global binding
resolves without panicking. -/
theorem claim_C2_amended_witness :
    (get_global_binary_file_name ⟨fun _ => Except.ok none, fun _ _ => Except.ok "cachedir"⟩
        ⟨[], [], []⟩ "fmt").isPanicked = false :=
  claim_C2_amended_no_panic _ _ _
    (by
      intro identifier item hloc hbin
      simp [PluginsManifest.get_global_binary_location] at hloc)

/-- Claim C3: for every non-empty candidate list, `get_latest_binary` returns
a maximum element under the `BinaryManifestItem` total order, for a singleton
list that element itself, and for the empty list none. -/
theorem claim_C3_latest_binary (l : List BinaryManifestItem) :
    (get_latest_binary l = none ↔ l = []) ∧
    (∀ b, l = [b] → get_latest_binary l = some b) ∧
    (∀ r, get_latest_binary l = some r →
      r ∈ l ∧ ∀ b ∈ l, BinaryManifestItem.cmp r b ≠ Ordering.lt) := by
  refine ⟨get_latest_binary_eq_none_iff l, ?_, ?_⟩
  · intro b hb
    subst hb
    rfl
  · intro r hr
    have hr2 : List.foldl latestStep none l = some r := hr
    have hmem := foldl_latestStep_mem l none r hr2
    have hge := (foldl_latestStep_ge l none r hr2).1
    rcases hmem with hcontra | hmem
    · cases hcontra
    · exact ⟨hmem, hge⟩

/-- Witness for claim C3: the empty list yields none and a singleton list
yields its element. -/
theorem claim_C3_witness :
    get_latest_binary [] = none ∧
    get_latest_binary [⟨⟨"acme", "fmt"⟩, ⟨1, 2, 0⟩, []⟩] =
      some ⟨⟨"acme", "fmt"⟩, ⟨1, 2, 0⟩, []⟩ :=
  ⟨(claim_C3_latest_binary []).1.mpr rfl,
   (claim_C3_latest_binary [⟨⟨"acme", "fmt"⟩, ⟨1, 2, 0⟩, []⟩]).2.1 _ rfl⟩

/-- Claim C4: whenever the name+version matching set contains two binaries
with distinct owners, strict lookup returns the multiple-owners error
carrying the displayed installed versions, which are annotated with the
owner. -/
theorem claim_C4_ambiguous_owner (manifest : PluginsManifest)
    (name_selector : NameSelector) (version_selector : VersionSelector)
    (b1 b2 : BinaryManifestItem)
    (h1 : b1 ∈ manifest.get_binaries_matching_name_and_version name_selector version_selector)
    (h2 : b2 ∈ manifest.get_binaries_matching_name_and_version name_selector version_selector)
    (how : b1.name.owner ≠ b2.name.owner) :
    get_binary_with_name_and_version manifest name_selector version_selector =
      RunOutcome.error (ResolutionError.multipleOwners name_selector version_selector
        (display_binaries_versions
          (manifest.get_binaries_matching_name_and_version name_selector version_selector))) ∧
    display_binaries_versions
        (manifest.get_binaries_matching_name_and_version name_selector version_selector) =
      (sortBinaries
          (manifest.get_binaries_matching_name_and_version name_selector version_selector)).map
        (fun b => b.name.toDisplay ++ " " ++ b.version.toDisplay) := by
  have hne :
      manifest.get_binaries_matching_name_and_version name_selector version_selector ≠ [] := by
    intro hnil
    rw [hnil] at h1
    exact List.not_mem_nil b1 h1
  have howner :
      get_have_same_owner
        (manifest.get_binaries_matching_name_and_version name_selector version_selector) =
      false := by
    cases hq :
        get_have_same_owner
          (manifest.get_binaries_matching_name_and_version name_selector version_selector) with
    | false => rfl
    | true => exact absurd ((get_have_same_owner_iff _).mp hq b1 h1 b2 h2) how
  constructor
  · rw [get_binary_with_name_and_version]
    rw [if_neg (by simp [List.length_eq_zero, hne])]
    rw [if_pos (by simp [howner])]
  · exact display_binaries_versions_mixed _ b1 b2 h1 h2 how

/-- Witness for claim C4 at a two-owner fixture. -/
theorem claim_C4_witness :
    get_binary_with_name_and_version
        ⟨[⟨⟨"acme", "fmt"⟩, ⟨1, 2, 0⟩, []⟩, ⟨⟨"zeta", "fmt"⟩, ⟨0, 9, 0⟩, []⟩], [], []⟩
        ⟨none, "fmt"⟩ VersionSelector.anyVersion =
      RunOutcome.error (ResolutionError.multipleOwners ⟨none, "fmt"⟩
        VersionSelector.anyVersion ["acme/fmt 1.2.0", "zeta/fmt 0.9.0"]) := by
  have h := claim_C4_ambiguous_owner
    ⟨[⟨⟨"acme", "fmt"⟩, ⟨1, 2, 0⟩, []⟩, ⟨⟨"zeta", "fmt"⟩, ⟨0, 9, 0⟩, []⟩], [], []⟩
    ⟨none, "fmt"⟩ VersionSelector.anyVersion
    ⟨⟨"acme", "fmt"⟩, ⟨1, 2, 0⟩, []⟩ ⟨⟨"zeta", "fmt"⟩, ⟨0, 9, 0⟩, []⟩
    (by decide) (by decide) (by decide)
  rw [h.1]
  rfl

/-- Claim C5: with an empty name+version matching set, strict lookup fails
with the plain not-found error when nothing matches the name alone, and
otherwise with the distinct version-mismatch error listing the displayed
versions of every binary matching the name, the display being sorted by the
total order. -/
theorem claim_C5_version_mismatch (manifest : PluginsManifest)
    (name_selector : NameSelector) (version_selector : VersionSelector)
    (h : manifest.get_binaries_matching_name_and_version name_selector version_selector = []) :
    (manifest.get_binaries_matching_name name_selector = [] →
      get_binary_with_name_and_version manifest name_selector version_selector =
        RunOutcome.error (ResolutionError.notFoundNamed name_selector)) ∧
    (manifest.get_binaries_matching_name name_selector ≠ [] →
      get_binary_with_name_and_version manifest name_selector version_selector =
        RunOutcome.error (ResolutionError.versionMismatch name_selector version_selector
          (display_binaries_versions (manifest.get_binaries_matching_name name_selector)))) ∧
    (ResolutionError.versionMismatch name_selector version_selector
        (display_binaries_versions (manifest.get_binaries_matching_name name_selector)) ≠
      ResolutionError.notFoundNamed name_selector) ∧
    List.Sorted BinaryManifestItem.le
      (sortBinaries (manifest.get_binaries_matching_name name_selector)) := by
  refine ⟨?_, ?_, by simp, sortBinaries_sorted _⟩
  · intro hname
    rw [get_binary_with_name_and_version]
    rw [if_pos (by simp [h])]
    rw [if_pos (by simp [hname])]
  · intro hname
    rw [get_binary_with_name_and_version]
    rw [if_pos (by simp [h])]
    rw [if_neg (by simp [List.isEmpty_iff, hname])]

/-- Witness for claim C5: a manifest holding other versions of the name,
none matching the requested exact version. -/
theorem claim_C5_witness :
    get_binary_with_name_and_version
        ⟨[⟨⟨"acme", "fmt"⟩, ⟨1, 2, 0⟩, []⟩], [], []⟩
        ⟨none, "fmt"⟩ (VersionSelector.exactVersion ⟨9, 9, 9⟩) =
      RunOutcome.error (ResolutionError.versionMismatch ⟨none, "fmt"⟩
        (VersionSelector.exactVersion ⟨9, 9, 9⟩) ["1.2.0"]) := by
  have h := (claim_C5_version_mismatch
    ⟨[⟨⟨"acme", "fmt"⟩, ⟨1, 2, 0⟩, []⟩], [], []⟩
    ⟨none, "fmt"⟩ (VersionSelector.exactVersion ⟨9, 9, 9⟩) (by decide)).2.1 (by decide)
  rw [h]
  rfl

/-- Claim C6: a command bound to `Bvm(id)` whose identifier has no installed
entry resolves to the stale-binding error result directing the user to
reselect a version, not a panic. -/
theorem claim_C6_stale_binding (environment : Environment) (manifest : PluginsManifest)
    (command_name : String) (identifier : BinaryIdentifier)
    (hloc : manifest.get_global_binary_location command_name =
      some (GlobalBinaryLocation.bvm identifier))
    (hbin : manifest.get_binary identifier = none) :
    get_global_binary_file_name environment manifest command_name =
      RunOutcome.error (ResolutionError.staleGlobalBinary command_name) ∧
    (get_global_binary_file_name environment manifest command_name).isPanicked = false := by
  have hres : get_global_binary_file_name environment manifest command_name =
      RunOutcome.error (ResolutionError.staleGlobalBinary command_name) := by
    simp [get_global_binary_file_name, hloc, hbin]
  exact ⟨hres, by rw [hres]; rfl⟩

/-- Witness for claim C6: a binding left behind after an uninstall. -/
theorem claim_C6_witness :
    get_global_binary_file_name ⟨fun _ => Except.ok none, fun _ _ => Except.ok "cachedir"⟩
        ⟨[], [], [("fmt", GlobalBinaryLocation.bvm ⟨"acme", "fmt", ⟨1, 2, 0⟩⟩)]⟩ "fmt" =
      RunOutcome.error (ResolutionError.staleGlobalBinary "fmt") :=
  (claim_C6_stale_binding ⟨fun _ => Except.ok none, fun _ _ => Except.ok "cachedir"⟩
    ⟨[], [], [("fmt", GlobalBinaryLocation.bvm ⟨"acme", "fmt", ⟨1, 2, 0⟩⟩)]⟩ "fmt"
    ⟨"acme", "fmt", ⟨1, 2, 0⟩⟩ rfl rfl).1

/-- Claim C7: with no global binding, resolution first delegates to the
PATH; when the PATH yields nothing it fails listing the displayed versions
of the installed binaries providing the command, or with the plain
not-found error when no installed binary provides it. -/
theorem claim_C7_no_binding (environment : Environment) (manifest : PluginsManifest)
    (command_name : String)
    (hloc : manifest.get_global_binary_location command_name = none) :
    (∀ p, environment.find_path_executable command_name = Except.ok (some p) →
      get_global_binary_file_name environment manifest command_name = RunOutcome.ok p) ∧
    (environment.find_path_executable command_name = Except.ok none →
      (manifest.get_binaries_with_command command_name = [] →
        get_global_binary_file_name environment manifest command_name =
          RunOutcome.error (ResolutionError.noPathBinary command_name)) ∧
      (manifest.get_binaries_with_command command_name ≠ [] →
        get_global_binary_file_name environment manifest command_name =
          RunOutcome.error (ResolutionError.noGlobalVersionSet command_name
            (display_binaries_versions
              (manifest.get_binaries_with_command command_name))))) := by
  refine ⟨fun p hp => ?_, fun hnone => ⟨fun hempty => ?_, fun hne => ?_⟩⟩
  · simp [get_global_binary_file_name, hloc, hp]
  · simp [get_global_binary_file_name, hloc, hnone, hempty]
  · rw [get_global_binary_file_name]
    rw [hloc]
    rw [hnone]
    simp only []
    rw [if_neg (by simp [List.isEmpty_iff, hne])]

/-- Witness for claim C7: no binding, no PATH executable, one installed
candidate providing the command; the error lists that candidate's version. -/
theorem claim_C7_witness :
    get_global_binary_file_name ⟨fun _ => Except.ok none, fun _ _ => Except.ok "cachedir"⟩
        ⟨[⟨⟨"acme", "fmt"⟩, ⟨1, 2, 0⟩, [⟨"fmt", "fmt-bin"⟩]⟩], [], []⟩ "fmt" =
      RunOutcome.error (ResolutionError.noGlobalVersionSet "fmt" ["1.2.0"]) := by
  have h := ((claim_C7_no_binding ⟨fun _ => Except.ok none, fun _ _ => Except.ok "cachedir"⟩
    ⟨[⟨⟨"acme", "fmt"⟩, ⟨1, 2, 0⟩, [⟨"fmt", "fmt-bin"⟩]⟩], [], []⟩ "fmt" rfl).2 rfl).2
    (by decide)
  rw [h]
  rfl

/-- Claim C8: a config file binary whose source URL has no manifest
association resolves to none, with or without a version selector. -/
theorem claim_C8_unassociated_url (manifest : PluginsManifest)
    (config_binary : ConfigFileBinary)
    (h : manifest.get_identifier_from_url config_binary.path = none) :
    get_installed_binary_if_associated_config_file_binary manifest config_binary = none := by
  rw [get_installed_binary_if_associated_config_file_binary, h]

/-- Witness for claim C8: an unassociated URL carrying a version selector. -/
theorem claim_C8_witness :
    get_installed_binary_if_associated_config_file_binary
        ⟨[⟨⟨"acme", "fmt"⟩, ⟨1, 2, 0⟩, []⟩], [], []⟩
        ⟨"https://example.com/fmt.json", some VersionSelector.anyVersion⟩ = none :=
  claim_C8_unassociated_url _ _ rfl

/-- Claim C9: `display_binaries_versions` returns the empty list on the
empty set, bare version strings on a uniform-owner set, name-and-version
strings on a mixed-owner set, and in each case follows the order sorted by
the total order. -/
theorem claim_C9_display (l : List BinaryManifestItem) :
    (l = [] → display_binaries_versions l = []) ∧
    ((∀ a ∈ l, ∀ b ∈ l, a.name.owner = b.name.owner) →
      display_binaries_versions l = (sortBinaries l).map (fun b => b.version.toDisplay)) ∧
    ((∃ a ∈ l, ∃ c ∈ l, a.name.owner ≠ c.name.owner) →
      display_binaries_versions l =
        (sortBinaries l).map (fun b => b.name.toDisplay ++ " " ++ b.version.toDisplay)) ∧
    (sortBinaries l).Perm l ∧
    List.Sorted BinaryManifestItem.le (sortBinaries l) := by
  refine ⟨?_, display_binaries_versions_uniform l, ?_, sortBinaries_perm l,
    sortBinaries_sorted l⟩
  · intro hnil
    subst hnil
    rfl
  · intro hmixed
    obtain ⟨a, ha, c, hc, how⟩ := hmixed
    exact display_binaries_versions_mixed l a c ha hc how

/-- Witness for claim C9 at a mixed-owner fixture. -/
theorem claim_C9_witness :
    display_binaries_versions
        [⟨⟨"zeta", "fmt"⟩, ⟨0, 9, 0⟩, []⟩, ⟨⟨"acme", "fmt"⟩, ⟨1, 2, 0⟩, []⟩] =
      ["acme/fmt 1.2.0", "zeta/fmt 0.9.0"] := by
  have h := (claim_C9_display
    [⟨⟨"zeta", "fmt"⟩, ⟨0, 9, 0⟩, []⟩, ⟨⟨"acme", "fmt"⟩, ⟨1, 2, 0⟩, []⟩]).2.2.1
    ⟨⟨⟨"zeta", "fmt"⟩, ⟨0, 9, 0⟩, []⟩, by decide, ⟨⟨"acme", "fmt"⟩, ⟨1, 2, 0⟩, []⟩,
      by decide, by decide⟩
  rw [h]
  rfl

/-- Claim C10: whenever the name+version matching set is non-empty and all
its members share one owner, `get_latest_binary` returns some item and
strict lookup returns that item as a success, so the unwrap on the success
branch never fails. -/
theorem claim_C10_unwrap_safe (manifest : PluginsManifest) (name_selector : NameSelector)
    (version_selector : VersionSelector)
    (hne : manifest.get_binaries_matching_name_and_version name_selector version_selector ≠ [])
    (howner : get_have_same_owner
      (manifest.get_binaries_matching_name_and_version name_selector version_selector) = true) :
    ∃ b, get_latest_binary
        (manifest.get_binaries_matching_name_and_version name_selector version_selector) =
          some b ∧
      get_binary_with_name_and_version manifest name_selector version_selector =
        RunOutcome.ok b := by
  obtain ⟨b, hb⟩ := get_latest_binary_of_ne_nil _ hne
  refine ⟨b, hb, ?_⟩
  rw [get_binary_with_name_and_version]
  rw [if_neg (by simp [List.length_eq_zero, hne])]
  rw [if_neg (by simp [howner])]
  rw [hb]

/-- Witness for claim C10: a single installed matching binary is returned
successfully. -/
theorem claim_C10_witness :
    get_binary_with_name_and_version ⟨[⟨⟨"acme", "fmt"⟩, ⟨1, 2, 0⟩, []⟩], [], []⟩
        ⟨none, "fmt"⟩ VersionSelector.anyVersion =
      RunOutcome.ok ⟨⟨"acme", "fmt"⟩, ⟨1, 2, 0⟩, []⟩ := by
  obtain ⟨b, hb, hres⟩ := claim_C10_unwrap_safe
    ⟨[⟨⟨"acme", "fmt"⟩, ⟨1, 2, 0⟩, []⟩], [], []⟩ ⟨none, "fmt"⟩ VersionSelector.anyVersion
    (by decide) (by decide)
  have hb3 : get_latest_binary
      (PluginsManifest.get_binaries_matching_name_and_version
        ⟨[⟨⟨"acme", "fmt"⟩, ⟨1, 2, 0⟩, []⟩], [], []⟩ ⟨none, "fmt"⟩
        VersionSelector.anyVersion) =
      some ⟨⟨"acme", "fmt"⟩, ⟨1, 2, 0⟩, []⟩ := by decide
  rw [hb3] at hb
  injection hb with hbi
  rw [← hbi] at hres
  exact hres

end Bvm
